import Mathlib

/-
Verification of the MIDI connection supervisor and protocol translator
(src/midi.rs) of the falconledcontroller-ledstrips-mapping repository.

The module is embedded shallowly: raw MIDI bytes are Nat values below 256,
raw messages are lists of bytes, and the observable behaviour of the worker
thread (sleeps, successful sends on the output port, event-send attempts on
the outbound event channel) is a list of actions computed from an explicit
environment describing what the platform MIDI stack would answer.
-/

set_option maxRecDepth 8192

namespace LedMidi

/-- Semantic controller events, mirroring `enum MidiEvent` in src/midi.rs. -/
inductive MidiEvent where
  | NoteOn (note velocity : Nat)
  | ControlChange (controller value : Nat)
  | Connected
  | Disconnected
deriving DecidableEq, Repr

/-- Semantic controller commands, mirroring `enum MidiCommand` in src/midi.rs. -/
inductive MidiCommand where
  | SetPadColor (note color : Nat)
  | SetButtonColor (cc color : Nat)
  | ClearAll
deriving DecidableEq, Repr

/-- Inbound translator: the body of the input callback registered by
`run_midi_loop` (src/midi.rs lines 185-209).  Given the raw message bytes it
returns the event passed to `tx.send`, if any: length at least 3, status
nibble `message[0] & 0xF0` dispatched to `0x90` / `0xB0`, third byte must be
non-zero. -/
def decodeMessage (message : List Nat) : Option MidiEvent :=
  if 3 ≤ message.length then
    let status := message.getD 0 0 &&& 0xF0
    if status = 0x90 then
      let note := message.getD 1 0
      let vel := message.getD 2 0
      if 0 < vel then some (MidiEvent.NoteOn note vel) else none
    else if status = 0xB0 then
      let cc := message.getD 1 0
      let val := message.getD 2 0
      if 0 < val then some (MidiEvent.ControlChange cc val) else none
    else none
  else none

/-- Outbound dispatcher: the raw messages sent on `conn_out` for one dequeued
command (the command loop of `run_midi_loop`, src/midi.rs lines 228-250).
`ClearAll` iterates `for i in 0..127`, sending the note-off before the
cc-off at each index. -/
def encodeCommand : MidiCommand → List (List Nat)
  | MidiCommand.SetPadColor note color => [[0x90, note, color]]
  | MidiCommand.SetButtonColor cc color => [[0xB0, cc, color]]
  | MidiCommand.ClearAll =>
      (List.range 127).flatMap (fun i => [[0x90, i, 0], [0xB0, i, 0]])

/-- The command loop drains the queue one command at a time; all of a
command's messages are sent before the next command is dequeued. -/
def runCommands (cmds : List MidiCommand) : List (List Nat) :=
  cmds.flatMap encodeCommand

theorem decodeMessage_cons (a b c : Nat) (t : List Nat) :
    decodeMessage (a :: b :: c :: t) =
      if a &&& 0xF0 = 0x90 then
        (if 0 < c then some (MidiEvent.NoteOn b c) else none)
      else if a &&& 0xF0 = 0xB0 then
        (if 0 < c then some (MidiEvent.ControlChange b c) else none)
      else none := by
  have h3 : 3 ≤ (a :: b :: c :: t).length := by
    simp [List.length_cons]
  simp only [decodeMessage, h3, if_true, List.getD, List.getElem?_cons_zero,
    List.getElem?_cons_succ, Option.getD_some]
  rfl

theorem decodeMessage_short (m : List Nat) (h : m.length < 3) :
    decodeMessage m = none := by
  unfold decodeMessage
  rw [if_neg (by omega)]

theorem land_f0_eq_90_iff : ∀ b, b < 256 → ((b &&& 0xF0 = 0x90) ↔ b / 16 = 9) := by
  decide

theorem land_f0_eq_b0_iff : ∀ b, b < 256 → ((b &&& 0xF0 = 0xB0) ↔ b / 16 = 11) := by
  decide

/-- Claim C1: the inbound translator emits `NoteOn` exactly when the raw
message is at least 3 bytes long, the first byte's high nibble is 0x9 and the
third byte is non-zero; it emits `ControlChange` exactly when the message is
at least 3 bytes long, the high nibble is 0xB and the third byte is non-zero;
any other status nibble, any message shorter than 3 bytes, or a zero third
byte produces no event. -/
theorem C1_inbound_translator (m : List Nat) (hb : ∀ b ∈ m, b < 256) :
    ((∃ n v, decodeMessage m = some (MidiEvent.NoteOn n v)) ↔
       (3 ≤ m.length ∧ m.getD 0 0 / 16 = 9 ∧ 0 < m.getD 2 0)) ∧
    ((∃ c v, decodeMessage m = some (MidiEvent.ControlChange c v)) ↔
       (3 ≤ m.length ∧ m.getD 0 0 / 16 = 11 ∧ 0 < m.getD 2 0)) ∧
    ((m.length < 3 ∨ (m.getD 0 0 / 16 ≠ 9 ∧ m.getD 0 0 / 16 ≠ 11) ∨ m.getD 2 0 = 0) →
       decodeMessage m = none) := by
  match m with
  | [] => simp [decodeMessage]
  | [a] => simp [decodeMessage]
  | [a, b] => simp [decodeMessage]
  | a :: b :: c :: t =>
    have ha : a < 256 := hb a (by simp)
    have h9 := land_f0_eq_90_iff a ha
    have hB := land_f0_eq_b0_iff a ha
    have hlen : 3 ≤ (a :: b :: c :: t).length := by simp [List.length_cons]
    have hg0 : (a :: b :: c :: t).getD 0 0 = a := rfl
    have hg2 : (a :: b :: c :: t).getD 2 0 = c := rfl
    rw [decodeMessage_cons]
    by_cases e9 : a &&& 0xF0 = 0x90
    · have d9 : a / 16 = 9 := h9.mp e9
      by_cases hc : 0 < c
      · simp [e9, hc, hg0, hg2, d9, hlen]
        omega
      · simp [e9, hc, hg0, hg2, d9]
    · have d9 : a / 16 ≠ 9 := fun h => e9 (h9.mpr h)
      by_cases eB : a &&& 0xF0 = 0xB0
      · have dB : a / 16 = 11 := hB.mp eB
        by_cases hc : 0 < c
        · simp [e9, eB, hc, hg0, hg2, dB, hlen, d9]
          omega
        · simp [e9, eB, hc, hg0, hg2, dB, d9]
      · have dB : a / 16 ≠ 11 := fun h => eB (hB.mpr h)
        simp [e9, eB, hg0, hg2, d9, dB]

theorem C1_inbound_translator_witness :
    (∃ n v, decodeMessage [0x92, 5, 7] = some (MidiEvent.NoteOn n v)) ∧
    decodeMessage [0x80, 5, 7] = none :=
  ⟨(C1_inbound_translator [0x92, 5, 7] (by decide)).1.mpr (by decide),
   (C1_inbound_translator [0x80, 5, 7] (by decide)).2.2 (by decide)⟩

/-- Claim C6, counterexample: the translator only guards against a zero third
byte, so the raw message `[0x90, 1, 200]` (a byte stream the callback type
admits) emits a `NoteOn` whose velocity 200 lies outside `1..=127`. -/
theorem C6_velocity_range_counterexample :
    decodeMessage [0x90, 1, 200] = some (MidiEvent.NoteOn 1 200) ∧
    ¬(1 ≤ 200 ∧ 200 ≤ 127) := by
  decide

/-- Claim C6 (amended): whenever the third byte of the raw message is a valid
MIDI data byte (below 128), every emitted `NoteOn` velocity and
`ControlChange` value lies in `1..=127`; for arbitrary raw bytes the code
guarantees only that the value is non-zero. -/
theorem C6_velocity_range (m : List Nat) (h : m.getD 2 0 < 128) :
    (∀ n v, decodeMessage m = some (MidiEvent.NoteOn n v) → 1 ≤ v ∧ v ≤ 127) ∧
    (∀ c v, decodeMessage m = some (MidiEvent.ControlChange c v) → 1 ≤ v ∧ v ≤ 127) := by
  match m with
  | [] => simp [decodeMessage]
  | [a] => simp [decodeMessage]
  | [a, b] => simp [decodeMessage]
  | a :: b :: c :: t =>
    have hg2 : (a :: b :: c :: t).getD 2 0 = c := rfl
    rw [hg2] at h
    by_cases e9 : a &&& 0xF0 = 0x90 <;> by_cases eB : a &&& 0xF0 = 0xB0 <;>
      by_cases hc : 0 < c <;>
        simp [decodeMessage_cons, e9, eB, hc] <;>
          omega

theorem C6_velocity_range_witness :
    decodeMessage [0x90, 1, 5] = some (MidiEvent.NoteOn 1 5) ∧ (1 ≤ 5 ∧ 5 ≤ 127) :=
  ⟨by decide, (C6_velocity_range [0x90, 1, 5] (by decide)).1 1 5 (by decide)⟩

/-- Claim C10: a raw message longer than 3 bytes is decoded from its first
three bytes only; with status nibble 0x9 (or 0xB) and a non-zero third byte
it still emits `NoteOn` (or `ControlChange`) built from bytes 2 and 3, all
trailing bytes ignored. -/
theorem C10_extra_bytes_ignored (a b c : Nat) (rest : List Nat) :
    decodeMessage (a :: b :: c :: rest) = decodeMessage [a, b, c] ∧
    (a &&& 0xF0 = 0x90 → 0 < c →
       decodeMessage (a :: b :: c :: rest) = some (MidiEvent.NoteOn b c)) ∧
    (a &&& 0xF0 = 0xB0 → 0 < c →
       decodeMessage (a :: b :: c :: rest) = some (MidiEvent.ControlChange b c)) := by
  refine ⟨by rw [decodeMessage_cons, decodeMessage_cons], ?_, ?_⟩
  · intro h9 hc
    rw [decodeMessage_cons, if_pos h9, if_pos hc]
  · intro hB hc
    have h9 : ¬(a &&& 0xF0 = 0x90) := by rw [hB]; decide
    rw [decodeMessage_cons, if_neg h9, if_pos hB, if_pos hc]

theorem C10_extra_bytes_ignored_witness :
    decodeMessage [0x95, 3, 7, 9, 11] = some (MidiEvent.NoteOn 3 7) :=
  (C10_extra_bytes_ignored 0x95 3 7 [9, 11]).2.1 (by decide) (by decide)

/-- Claim C3: `ClearAll` sends exactly 254 messages: for each index i from 0
to 126 ascending, first `[0x90, i, 0]` then `[0xB0, i, 0]`; and within a
command stream the burst is contiguous, with no other command's messages
interleaved. -/
theorem C3_clear_all :
    (encodeCommand MidiCommand.ClearAll).length = 254 ∧
    (∀ k, k < 127 →
       (encodeCommand MidiCommand.ClearAll).getD (2 * k) [] = [0x90, k, 0] ∧
       (encodeCommand MidiCommand.ClearAll).getD (2 * k + 1) [] = [0xB0, k, 0]) ∧
    (∀ pre post, runCommands (pre ++ MidiCommand.ClearAll :: post) =
       runCommands pre ++ encodeCommand MidiCommand.ClearAll ++ runCommands post) := by
  refine ⟨by decide, by decide, ?_⟩
  intro pre post
  simp [runCommands, List.flatMap_append, List.flatMap_cons, List.append_assoc]

theorem C3_clear_all_witness :
    (encodeCommand MidiCommand.ClearAll).getD 10 [] = [0x90, 5, 0] ∧
    (encodeCommand MidiCommand.ClearAll).getD 11 [] = [0xB0, 5, 0] :=
  C3_clear_all.2.1 5 (by decide)

/-- Claim C9: a dequeued `SetPadColor` sends exactly the single message
`[0x90, pad_index, color_code]` and a dequeued `SetButtonColor` sends exactly
`[0xB0, control_index, color_code]`, each in place in the command stream;
in particular `SetPadColor {pad_index := 10, color_code := 21}` produces
exactly `[0x90, 10, 21]`. -/
theorem C9_set_color_dispatch (note color cc : Nat) (pre post : List MidiCommand) :
    (runCommands (pre ++ MidiCommand.SetPadColor note color :: post) =
       runCommands pre ++ [0x90, note, color] :: runCommands post) ∧
    (runCommands (pre ++ MidiCommand.SetButtonColor cc color :: post) =
       runCommands pre ++ [0xB0, cc, color] :: runCommands post) ∧
    runCommands [MidiCommand.SetPadColor 10 21] = [[0x90, 10, 21]] := by
  refine ⟨?_, ?_, by decide⟩ <;>
    simp [runCommands, List.flatMap_append, List.flatMap_cons, encodeCommand]

/-- Byte-wise list-of-characters matching helper for substring search. -/
def isPrefixOfL : List Char → List Char → Bool
  | [], _ => true
  | _ :: _, [] => false
  | a :: as, b :: bs => a == b && isPrefixOfL as bs

/-- Substring occurrence test on character lists. -/
def containsL : List Char → List Char → Bool
  | pat, [] => isPrefixOfL pat []
  | pat, b :: t => isPrefixOfL pat (b :: t) || containsL pat t

/-- Rust `str::contains` with a literal pattern: substring test. -/
def strContains (hay pat : String) : Bool := containsL pat.toList hay.toList

/-- Tier 1 predicate of the port matcher (src/midi.rs lines 126 and 150):
`name.contains("Launchpad") && (name.contains("MIDI") ||
name.contains("LPMiniMK3 MIDI"))`. -/
def tier1pred (name : String) : Bool :=
  strContains name "Launchpad" &&
    (strContains name "MIDI" || strContains name "LPMiniMK3 MIDI")

/-- Tier 2 predicate (src/midi.rs lines 132 and 156):
`name.contains("Launchpad") && !name.contains("DAW")`. -/
def tier2pred (name : String) : Bool :=
  strContains name "Launchpad" && !strContains name "DAW"

/-- Tier 3 predicate (src/midi.rs lines 139 and 163): `name.contains("Launchpad")`. -/
def tier3pred (name : String) : Bool :=
  strContains name "Launchpad"

/-- A port candidate is represented by the outcome of its fallible name
lookup: `none` when `port_name` returns an error.  The `let Ok(name) = ...
else return false` guard of each `find` closure makes such a candidate fail
every tier's predicate. -/
def readableAnd (pred : String → Bool) : Option String → Bool
  | some name => pred name
  | none => false

/-- Port selection for one direction (`lp_in` / `lp_out` in run_midi_loop,
src/midi.rs lines 120-165): a three-tier `find` chained with `or_else`,
each tier skipping candidates whose name lookup failed. -/
def selectPort (ports : List (Option String)) : Option (Option String) :=
  (ports.find? (readableAnd tier1pred) <|> ports.find? (readableAnd tier2pred)) <|>
    ports.find? (readableAnd tier3pred)

theorem find?_readable (pred : String → Bool) (ports : List (Option String)) :
    ports.find? (readableAnd pred) = Option.map some ((ports.filterMap id).find? pred) := by
  induction ports with
  | nil => rfl
  | cons p t ih =>
    cases p with
    | none =>
      simpa [List.find?_cons, List.filterMap_cons, readableAnd] using ih
    | some name =>
      by_cases hp : pred name <;>
        simp [List.find?_cons, List.filterMap_cons, readableAnd, hp, ih]

theorem map_some_orElse (a b : Option String) :
    Option.map some (a <|> b) = (Option.map some a <|> Option.map some b) := by
  cases a <;> rfl

/-- Claim C4: per direction the matcher selects by exact tier order — first a
readable name containing "Launchpad" and a MIDI qualifier token, else a
readable name containing "Launchpad" but not "DAW", else any readable name
containing "Launchpad", else none — and candidates with a failed name lookup
are excluded from every tier, matching proceeding over the remaining
candidates as if they did not exist. -/
theorem C4_port_matcher (ports : List (Option String)) :
    selectPort ports =
      Option.map some
        (((ports.filterMap id).find? tier1pred <|> (ports.filterMap id).find? tier2pred) <|>
          (ports.filterMap id).find? tier3pred) ∧
    selectPort [some "Launchpad MIDI 1", some "Launchpad DAW", some "Other Device"] =
      some (some "Launchpad MIDI 1") ∧
    selectPort [some "Launchpad DAW"] = some (some "Launchpad DAW") ∧
    selectPort [none, some "Launchpad DAW", some "Launchpad MIDI 1"] =
      some (some "Launchpad MIDI 1") ∧
    selectPort [none, some "Other Device"] = none := by
  refine ⟨?_, by decide, by decide, by decide, by decide⟩
  rw [selectPort, map_some_orElse, map_some_orElse,
    find?_readable, find?_readable, find?_readable]

/-- One enumeration attempt's observation: the input and output port lists,
each entry being the outcome of that port's name lookup. -/
structure Attempt where
  inPorts : List (Option String)
  outPorts : List (Option String)
deriving DecidableEq, Repr

/-- `has_valid_name` (src/midi.rs lines 76-77): some port in either direction
has a readable name. -/
def hasValidName (a : Attempt) : Bool :=
  a.inPorts.any Option.isSome || a.outPorts.any Option.isSome

/-- Worker-thread observable actions: sleeps, successful raw-message sends on
the open output connection, and event-send attempts on the outbound event
channel.  The `delivered` flag records whether the host still held the
receiving end when the send was attempted; the source discards the send
result (`let _ = tx.send(..)`). -/
inductive Action where
  | sleepMs (ms : Nat)
  | sendMsg (msg : List Nat)
  | emit (e : MidiEvent) (delivered : Bool)
deriving DecidableEq, Repr

def Action.isConnectedEmit : Action → Bool
  | Action.emit MidiEvent.Connected _ => true
  | _ => false

def Action.isDisconnectedEmit : Action → Bool
  | Action.emit MidiEvent.Disconnected _ => true
  | _ => false

/-- The enumeration retry loop of run_midi_loop (src/midi.rs lines 60-92):
`for attempt in 0..3` sleeps 500 ms before every attempt after the first,
stops at the first attempt with a readable name, and otherwise keeps the last
attempt's lists.  `remaining` lists the attempts the loop may still run,
`idx` is the loop counter and `lastA` the running `last_attempt`. -/
def enumGo : List Attempt → Nat → Attempt → List Action × Attempt
  | [], _, lastA => ([], lastA)
  | a :: rest, idx, _ =>
      let pre := if 0 < idx then [Action.sleepMs 500] else []
      if hasValidName a then (pre, a)
      else
        let r := enumGo rest (idx + 1) a
        (pre ++ r.1, r.2)

/-- Up to three enumeration attempts; the initial accumulator mirrors the
empty `last_attempt` value that the loop overwrites on its first
iteration. -/
def enumerate (r0 r1 r2 : Attempt) : List Action × Attempt :=
  enumGo [r0, r1, r2] 0 ⟨[], []⟩

/-- Claim C8: device enumeration performs at most 3 attempts, with a 500 ms
pause before every attempt after the first; it stops at the first attempt in
which at least one port in either direction yields a readable name, and
otherwise uses the last attempt's list for matching. -/
theorem C8_enumeration (r0 r1 r2 : Attempt) :
    (hasValidName r0 = true → enumerate r0 r1 r2 = ([], r0)) ∧
    (hasValidName r0 = false → hasValidName r1 = true →
       enumerate r0 r1 r2 = ([Action.sleepMs 500], r1)) ∧
    (hasValidName r0 = false → hasValidName r1 = false →
       enumerate r0 r1 r2 = ([Action.sleepMs 500, Action.sleepMs 500], r2)) := by
  refine ⟨fun h0 => ?_, fun h0 h1 => ?_, fun h0 h1 => ?_⟩
  · simp [enumerate, enumGo, h0]
  · simp [enumerate, enumGo, h0, h1]
  · by_cases h2 : hasValidName r2 <;> simp [enumerate, enumGo, h0, h1, h2]

/-- An attempt in which a Launchpad MIDI port is visible in both directions. -/
def okAttempt : Attempt :=
  ⟨[some "Launchpad MIDI 1"], [some "Launchpad MIDI 1"]⟩

/-- An attempt in which no port at all is visible. -/
def blankAttempt : Attempt := ⟨[], []⟩

theorem C8_enumeration_witness :
    enumerate blankAttempt okAttempt blankAttempt = ([Action.sleepMs 500], okAttempt) :=
  (C8_enumeration blankAttempt okAttempt blankAttempt).2.1 (by decide) (by decide)

/-- The mode-switch System-Exclusive message (src/midi.rs line 217). -/
def modeSwitchSysex : List Nat :=
  [0xF0, 0x00, 0x20, 0x29, 0x02, 0x0D, 0x0E, 0x01, 0xF7]

/-- Environment of one `run_midi_loop` call: what the platform returns on each
enumeration attempt, whether the two `connect` calls and the handshake send
succeed, whether the host still holds the event channel's receiving end, and
the commands dequeued before the blocking receive fails. -/
structure SessionEnv where
  r0 : Attempt
  r1 : Attempt
  r2 : Attempt
  connectInOk : Bool
  connectOutOk : Bool
  sysexOk : Bool
  eventChannelOpen : Bool
  cmds : List MidiCommand
deriving DecidableEq, Repr

/-- Sends performed by the active command loop. -/
def cmdLoop (cmds : List MidiCommand) : List Action :=
  cmds.flatMap (fun c => (encodeCommand c).map Action.sendMsg)

/-- Worker-thread trace of one `run_midi_loop` call (src/midi.rs lines
52-254).  `sendMsg` records successful sends only; a failed connect or
handshake send ends the call with an error and no further actions.  Every
modelled call ends in an error, as in the source, whose command loop exits
only through error propagation. -/
def sessionTrace (env : SessionEnv) : List Action :=
  match selectPort (enumerate env.r0 env.r1 env.r2).2.inPorts,
      selectPort (enumerate env.r0 env.r1 env.r2).2.outPorts with
  | some _, some _ =>
      if env.connectInOk then
        if env.connectOutOk then
          if env.sysexOk then
            (enumerate env.r0 env.r1 env.r2).1 ++
              (Action.sendMsg modeSwitchSysex ::
                Action.sleepMs 100 ::
                  Action.emit MidiEvent.Connected env.eventChannelOpen ::
                    cmdLoop env.cmds)
          else (enumerate env.r0 env.r1 env.r2).1
        else (enumerate env.r0 env.r1 env.r2).1
      else (enumerate env.r0 env.r1 env.r2).1
  | _, _ => (enumerate env.r0 env.r1 env.r2).1

/-- Supervisor loop of `start_midi_service` (src/midi.rs lines 23-47) on a
finite window of failing sessions: at the top of every iteration except the
first it attempts to send `Disconnected`, then runs the session and, on its
error, sleeps 2 seconds before looping. -/
def supervisorTrace : List SessionEnv → Bool → List Action
  | [], _ => []
  | env :: rest, firstAttempt =>
      (if firstAttempt then []
       else [Action.emit MidiEvent.Disconnected env.eventChannelOpen]) ++
        (sessionTrace env ++ Action.sleepMs 2000 :: supervisorTrace rest false)

theorem enumerate_all_sleeps (r0 r1 r2 : Attempt) :
    ∀ a ∈ (enumerate r0 r1 r2).1, a = Action.sleepMs 500 := by
  by_cases h0 : hasValidName r0 <;> by_cases h1 : hasValidName r1 <;>
    by_cases h2 : hasValidName r2 <;>
      simp [enumerate, enumGo, h0, h1, h2]

theorem cmdLoop_all_sends (cmds : List MidiCommand) :
    ∀ a ∈ cmdLoop cmds, ∃ m, a = Action.sendMsg m := by
  intro a ha
  simp only [cmdLoop, List.mem_flatMap, List.mem_map] at ha
  rcases ha with ⟨c, -, m, -, rfl⟩
  exact ⟨m, rfl⟩

theorem enumerate_count_emits (r0 r1 r2 : Attempt) (p : Action → Bool)
    (hp : ∀ ms, p (Action.sleepMs ms) = false) :
    (enumerate r0 r1 r2).1.countP p = 0 := by
  refine List.countP_eq_zero.mpr (fun a ha => ?_)
  rw [enumerate_all_sleeps r0 r1 r2 a ha]
  simp [hp]

theorem cmdLoop_count_emits (cmds : List MidiCommand) (p : Action → Bool)
    (hp : ∀ m, p (Action.sendMsg m) = false) :
    (cmdLoop cmds).countP p = 0 := by
  refine List.countP_eq_zero.mpr (fun a ha => ?_)
  rcases cmdLoop_all_sends cmds a ha with ⟨m, rfl⟩
  simp [hp]

/-- A session ends either before the handshake, in which case its trace is the
enumeration sleeps alone, or the handshake succeeds and the full trace
follows. -/
theorem sessionTrace_cases (env : SessionEnv) :
    sessionTrace env = (enumerate env.r0 env.r1 env.r2).1 ∨
    sessionTrace env =
      (enumerate env.r0 env.r1 env.r2).1 ++
        (Action.sendMsg modeSwitchSysex :: Action.sleepMs 100 ::
          Action.emit MidiEvent.Connected env.eventChannelOpen ::
            cmdLoop env.cmds) := by
  unfold sessionTrace
  cases selectPort (enumerate env.r0 env.r1 env.r2).2.inPorts with
  | none => left; rfl
  | some pin =>
    cases selectPort (enumerate env.r0 env.r1 env.r2).2.outPorts with
    | none => left; rfl
    | some pout =>
      by_cases h1 : env.connectInOk
      · by_cases h2 : env.connectOutOk
        · by_cases h3 : env.sysexOk
          · right; simp [h1, h2, h3]
          · left; simp [h1, h2, h3]
        · left; simp [h1, h2]
      · left; simp [h1]

theorem sessionTrace_count_disconnected (env : SessionEnv) :
    (sessionTrace env).countP Action.isDisconnectedEmit = 0 := by
  have he := enumerate_count_emits env.r0 env.r1 env.r2 Action.isDisconnectedEmit
    (fun ms => rfl)
  have hc := cmdLoop_count_emits env.cmds Action.isDisconnectedEmit (fun m => rfl)
  rcases sessionTrace_cases env with h | h <;> rw [h]
  · exact he
  · simp [List.countP_append, List.countP_cons, he, hc, Action.isDisconnectedEmit]

/-- Claim C7: in every session, `Connected` is emitted at most once, and only
immediately after the successful send of the 9-byte mode-switch sequence
F0 00 20 29 02 0D 0E 01 F7 on the output port followed by the 100 ms settle
sleep; it is never emitted without that prior successful send.  The input
callback never produces `Connected` (or `Disconnected`), so no other part of
a session emits it. -/
theorem C7_connected_handshake (env : SessionEnv) :
    ((sessionTrace env).countP Action.isConnectedEmit = 0 ∨
      (∃ pre suf d,
        sessionTrace env =
          pre ++ Action.sendMsg modeSwitchSysex :: Action.sleepMs 100 ::
            Action.emit MidiEvent.Connected d :: suf ∧
        pre.countP Action.isConnectedEmit = 0 ∧
        suf.countP Action.isConnectedEmit = 0)) ∧
    (∀ m e, decodeMessage m = some e →
       e ≠ MidiEvent.Connected ∧ e ≠ MidiEvent.Disconnected) := by
  have he := enumerate_count_emits env.r0 env.r1 env.r2 Action.isConnectedEmit
    (fun ms => rfl)
  have hc := cmdLoop_count_emits env.cmds Action.isConnectedEmit (fun m => rfl)
  constructor
  · rcases sessionTrace_cases env with h | h
    · exact Or.inl (h ▸ he)
    · exact Or.inr ⟨(enumerate env.r0 env.r1 env.r2).1, cmdLoop env.cmds,
        env.eventChannelOpen, h, he, hc⟩
  · intro m e heq
    rcases m with _ | ⟨a, _ | ⟨b, _ | ⟨c, t⟩⟩⟩
    · simp [decodeMessage] at heq
    · simp [decodeMessage] at heq
    · simp [decodeMessage] at heq
    · rw [decodeMessage_cons] at heq
      by_cases e9 : a &&& 0xF0 = 0x90
      · rw [if_pos e9] at heq
        by_cases hcz : 0 < c
        · rw [if_pos hcz] at heq
          cases heq
          exact ⟨by simp, by simp⟩
        · rw [if_neg hcz] at heq
          cases heq
      · rw [if_neg e9] at heq
        by_cases eB : a &&& 0xF0 = 0xB0
        · rw [if_pos eB] at heq
          by_cases hcz : 0 < c
          · rw [if_pos hcz] at heq
            cases heq
            exact ⟨by simp, by simp⟩
          · rw [if_neg hcz] at heq
            cases heq
        · rw [if_neg eB] at heq
          cases heq

theorem C7_connected_handshake_witness :
    MidiEvent.NoteOn 1 5 ≠ MidiEvent.Connected ∧
    MidiEvent.NoteOn 1 5 ≠ MidiEvent.Disconnected :=
  (C7_connected_handshake ⟨⟨[], []⟩, ⟨[], []⟩, ⟨[], []⟩, true, true, true, true, []⟩).2
    [0x90, 1, 5] (MidiEvent.NoteOn 1 5) (by decide)

/-- A session environment in which no enumeration attempt ever sees a port,
so the session fails without ever connecting. -/
def failEnv : SessionEnv :=
  ⟨blankAttempt, blankAttempt, blankAttempt, true, true, true, true, []⟩

/-- Claim C2, counterexample: with no device present, the first supervisor
iteration fails without any successful connection (no `Connected` is ever
emitted), yet the second iteration begins by emitting `Disconnected` — and
that emission happens only after the 2-second retry sleep, not before it. -/
theorem C2_disconnected_counterexample :
    supervisorTrace [failEnv, failEnv] true =
      [Action.sleepMs 500, Action.sleepMs 500, Action.sleepMs 2000,
       Action.emit MidiEvent.Disconnected true,
       Action.sleepMs 500, Action.sleepMs 500, Action.sleepMs 2000] ∧
    (supervisorTrace [failEnv, failEnv] true).countP Action.isConnectedEmit = 0 ∧
    (supervisorTrace [failEnv, failEnv] true).countP Action.isDisconnectedEmit = 1 := by
  decide

theorem supervisorTrace_false_count (envs : List SessionEnv) :
    (supervisorTrace envs false).countP Action.isDisconnectedEmit = envs.length := by
  induction envs with
  | nil => rfl
  | cons e t ih =>
    simp [supervisorTrace, List.countP_append, List.countP_cons,
      sessionTrace_count_disconnected, ih, Action.isDisconnectedEmit]

/-- Claim C2 (amended): the supervisor emits exactly one `Disconnected` per
failed iteration after the first of the process lifetime, whether or not any
connection has ever succeeded; the emission is attempted after the failed
iteration's 2-second retry sleep and immediately before the next attempt
begins, and sessions themselves never emit `Disconnected`. -/
theorem C2_disconnected_amended (envs : List SessionEnv) :
    ((supervisorTrace envs true).countP Action.isDisconnectedEmit =
       envs.length - 1) ∧
    (∀ env, (sessionTrace env).countP Action.isDisconnectedEmit = 0) ∧
    (∀ env rest, supervisorTrace (env :: rest) true =
       sessionTrace env ++ Action.sleepMs 2000 :: supervisorTrace rest false) ∧
    (∀ env rest, supervisorTrace (env :: rest) false =
       Action.emit MidiEvent.Disconnected env.eventChannelOpen ::
         (sessionTrace env ++ Action.sleepMs 2000 :: supervisorTrace rest false)) := by
  refine ⟨?_, sessionTrace_count_disconnected, fun env rest => by simp [supervisorTrace],
    fun env rest => by simp [supervisorTrace]⟩
  cases envs with
  | nil => rfl
  | cons e t =>
    simp [supervisorTrace, List.countP_append, List.countP_cons,
      sessionTrace_count_disconnected, supervisorTrace_false_count,
      Action.isDisconnectedEmit]

/-- A session environment with a Launchpad visible on the first attempt, a
successful handshake, the host's event receiver already dropped (channel
closed), and one further command queued. -/
def closedChannelEnv : SessionEnv :=
  ⟨okAttempt, blankAttempt, blankAttempt, true, true, true, false,
    [MidiCommand.SetPadColor 1 2]⟩

/-- Claim C5, counterexample: with the event channel closed the `Connected`
send is dropped (`delivered = false`), yet the session does not terminate —
it continues into the command loop and sends the queued command's message
after the dropped send. -/
theorem C5_closed_channel_counterexample :
    closedChannelEnv.eventChannelOpen = false ∧
    sessionTrace closedChannelEnv =
      [Action.sendMsg modeSwitchSysex, Action.sleepMs 100,
       Action.emit MidiEvent.Connected false, Action.sendMsg [0x90, 1, 2]] := by
  decide

/-- Erase the delivery outcome recorded on event-send attempts. -/
def stripDelivery : Action → Action
  | Action.emit e _ => Action.emit e true
  | a => a

/-- Claim C5 (amended): the result of every event send is discarded
(`let _ = tx.send(..)`), so a dropped event send is ignored rather than
session-ending: whether the host still receives has no effect on the
session's behaviour — the trace is unchanged apart from the recorded
delivery outcomes — and a session ends only through the command-receive or
output-send error paths. -/
theorem C5_closed_channel_amended (env : SessionEnv) (b1 b2 : Bool) :
    (sessionTrace { env with eventChannelOpen := b1 }).map stripDelivery =
      (sessionTrace { env with eventChannelOpen := b2 }).map stripDelivery := by
  rcases env with ⟨r0, r1, r2, ci, co, sx, ch, cmds⟩
  unfold sessionTrace
  dsimp only
  cases selectPort (enumerate r0 r1 r2).2.inPorts with
  | none => rfl
  | some pin =>
    cases selectPort (enumerate r0 r1 r2).2.outPorts with
    | none => rfl
    | some pout =>
      by_cases h1 : ci <;> by_cases h2 : co <;> by_cases h3 : sx <;>
        simp [h1, h2, h3, stripDelivery]

end LedMidi
